import Mathlib

/-!
Verification of the grpc-gateway-wrapper repository: a shallow embedding of
the log interceptor (interceptor/log/log.go), the server host (server
package), the form codec (encoding/http/form.go) and the JSON codec
(encoding/json/init.go), together with theorems about the claims made by
the design specification.
-/

set_option maxRecDepth 10000

/- ------------------------------------------------------------------ -/
/- gRPC status codes (google.golang.org/grpc/codes numeric values).    -/
/- ------------------------------------------------------------------ -/

/-- Numeric value of codes.OK. -/
def codeOK : Nat := 0

/-- Numeric value of codes.Canceled. -/
def codeCanceled : Nat := 1

/-- Numeric value of codes.Unknown. -/
def codeUnknown : Nat := 2

/-- Numeric value of codes.InvalidArgument. -/
def codeInvalidArgument : Nat := 3

/-- Numeric value of codes.DeadlineExceeded. -/
def codeDeadlineExceeded : Nat := 4

/-- Numeric value of codes.NotFound. -/
def codeNotFound : Nat := 5

/-- Numeric value of codes.AlreadyExists. -/
def codeAlreadyExists : Nat := 6

/-- Numeric value of codes.PermissionDenied. -/
def codePermissionDenied : Nat := 7

/-- Numeric value of codes.ResourceExhausted. -/
def codeResourceExhausted : Nat := 8

/-- Numeric value of codes.FailedPrecondition. -/
def codeFailedPrecondition : Nat := 9

/-- Numeric value of codes.Aborted. -/
def codeAborted : Nat := 10

/-- Numeric value of codes.OutOfRange. -/
def codeOutOfRange : Nat := 11

/-- Numeric value of codes.Unimplemented. -/
def codeUnimplemented : Nat := 12

/-- Numeric value of codes.Internal. -/
def codeInternal : Nat := 13

/-- Numeric value of codes.Unavailable. -/
def codeUnavailable : Nat := 14

/-- Numeric value of codes.DataLoss. -/
def codeDataLoss : Nat := 15

/-- Numeric value of codes.Unauthenticated. -/
def codeUnauthenticated : Nat := 16

/-- Log severities of the bdlm/std logger (std.Level), as used by the
interceptor (log.DebugLevel .. log.PanicLevel). -/
inductive Level where
  | debug
  | info
  | warn
  | error
  | fatal
  | panicLevel
  deriving DecidableEq, Repr

/-- DefaultCodeToLevel (log.go lines 262-303): the switch mapping a gRPC
status code to a log severity.  Codes are the uint32 values of the
grpc codes package; the final branch is the switch's `default` case. -/
def DefaultCodeToLevel (code : Nat) : Level :=
  if code = codeOK then .info
  else if code = codeCanceled then .info
  else if code = codeInvalidArgument then .info
  else if code = codeNotFound then .info
  else if code = codeAlreadyExists then .info
  else if code = codeUnauthenticated then .info
  else if code = codeDeadlineExceeded then .warn
  else if code = codePermissionDenied then .warn
  else if code = codeResourceExhausted then .warn
  else if code = codeFailedPrecondition then .warn
  else if code = codeAborted then .warn
  else if code = codeOutOfRange then .warn
  else if code = codeUnknown then .error
  else if code = codeUnimplemented then .error
  else if code = codeInternal then .error
  else if code = codeDataLoss then .error
  else if code = codeUnavailable then .warn
  else .error

/-- The codes the DefaultCodeToLevel switch matches with an explicit
(non-default) case, in source order (log.go lines 264-299). -/
def explicitlyMatchedCodes : List Nat :=
  [codeOK, codeCanceled, codeInvalidArgument, codeNotFound, codeAlreadyExists,
   codeUnauthenticated, codeDeadlineExceeded, codePermissionDenied,
   codeResourceExhausted, codeFailedPrecondition, codeAborted, codeOutOfRange,
   codeUnavailable, codeUnknown, codeUnimplemented, codeInternal, codeDataLoss]

/-- True when the DefaultCodeToLevel switch would fall through to its
`default` case on the given code. -/
def codeHitsDefaultCase (code : Nat) : Bool :=
  !(explicitlyMatchedCodes.contains code)

/-- Errors surfaced to the interceptor: either a gRPC status error carrying
a code, or a plain Go error.  status.Code maps nil to OK and a non-status
error to Unknown. -/
inductive GrpcErr where
  | statusErr (code : Nat)
  | plainErr
  deriving DecidableEq, Repr

/-- status.Code applied to the optional error returned by a handler:
nil gives OK, a status error gives its code, anything else Unknown. -/
def statusCode : Option GrpcErr → Nat
  | none => codeOK
  | some (.statusErr c) => c
  | some .plainErr => codeUnknown

/-- Severity of the request-started log entry: logRequest (log.go line 153)
calls .Info unconditionally. -/
def requestStartedLevel : Level := .info

/-- Severity of the response-finished log entry: logResponse (log.go line
183) calls levelLog with DefaultCodeToLevel of the status code of the
handler's error. -/
def responseFinishedLevel (err : Option GrpcErr) : Level :=
  DefaultCodeToLevel (statusCode err)

/-- Severity of a per-message stream log entry: logProtoMessageAsJSON
(log.go lines 236-238) calls levelLog with DefaultCodeToLevel of the code
in both of its branches. -/
def streamMessageLevel (code : Nat) : Level := DefaultCodeToLevel code

/-- C2: for every status code in the documented families the severity
mapping is the pure function DefaultCodeToLevel, returning info for
{OK, Canceled, NotFound, AlreadyExists, InvalidArgument, Unauthenticated},
warning for {DeadlineExceeded, PermissionDenied, ResourceExhausted,
FailedPrecondition, Aborted, OutOfRange, Unavailable}, and error for
{Unknown, Unimplemented, Internal, DataLoss}; every one of these codes is
matched by an explicit (non-default) case of the switch; and the
response-finished and per-message log sites both use DefaultCodeToLevel
while the request-started site logs at info, which coincides with
DefaultCodeToLevel applied to the OK status a call has before any error
exists. -/
theorem c2_severity_table :
    (DefaultCodeToLevel codeOK = .info ∧
     DefaultCodeToLevel codeCanceled = .info ∧
     DefaultCodeToLevel codeNotFound = .info ∧
     DefaultCodeToLevel codeAlreadyExists = .info ∧
     DefaultCodeToLevel codeInvalidArgument = .info ∧
     DefaultCodeToLevel codeUnauthenticated = .info) ∧
    (DefaultCodeToLevel codeDeadlineExceeded = .warn ∧
     DefaultCodeToLevel codePermissionDenied = .warn ∧
     DefaultCodeToLevel codeResourceExhausted = .warn ∧
     DefaultCodeToLevel codeFailedPrecondition = .warn ∧
     DefaultCodeToLevel codeAborted = .warn ∧
     DefaultCodeToLevel codeOutOfRange = .warn ∧
     DefaultCodeToLevel codeUnavailable = .warn) ∧
    (DefaultCodeToLevel codeUnknown = .error ∧
     DefaultCodeToLevel codeUnimplemented = .error ∧
     DefaultCodeToLevel codeInternal = .error ∧
     DefaultCodeToLevel codeDataLoss = .error) ∧
    (explicitlyMatchedCodes.all (fun c => !codeHitsDefaultCase c) = true ∧
     explicitlyMatchedCodes.length = 17) ∧
    (responseFinishedLevel = fun err => DefaultCodeToLevel (statusCode err)) ∧
    (streamMessageLevel = fun code => DefaultCodeToLevel code) ∧
    requestStartedLevel = DefaultCodeToLevel codeOK := by
  refine ⟨by decide, by decide, by decide, by decide, rfl, rfl, by decide⟩

/- ------------------------------------------------------------------ -/
/- Go path library (path.Clean, path.Dir, path.Base), on List Char.    -/
/- ------------------------------------------------------------------ -/

/-- Splits a character list on the slash character; models the component
view of a Go path (strings.Split on "/"). -/
def splitSlash : List Char → List (List Char)
  | [] => [[]]
  | '/' :: rest => [] :: splitSlash rest
  | c :: rest =>
    match splitSlash rest with
    | [] => [[c]]
    | w :: ws => (c :: w) :: ws

/-- Stack step of the path cleaner: processes the remaining components
against the stack of kept components, per the Plan 9 rules Go's path.Clean
documents (skip empty and dot components, resolve dot-dot against the
stack, keep leading dot-dots only for relative paths). -/
def cleanWorker (rooted : Bool) : List (List Char) → List (List Char) → List (List Char)
  | st, [] => st
  | st, c :: cs =>
    if c = ['.', '.'] then
      if st ≠ [] ∧ st.getLast? ≠ some ['.', '.'] then cleanWorker rooted st.dropLast cs
      else if rooted then cleanWorker rooted st cs
      else cleanWorker rooted (st ++ [c]) cs
    else cleanWorker rooted (st ++ [c]) cs

/-- Models Go path.Clean per its documentation: the shortest equivalent
path after eliminating multiple slashes, dot components, and resolved
dot-dot components; the empty path cleans to the dot path. -/
def goPathClean (p : List Char) : List Char :=
  if p = [] then ['.']
  else
    let rooted : Bool := p.head? = some '/'
    let comps := (splitSlash p).filter fun c => decide (c ≠ [] ∧ c ≠ ['.'])
    let out := cleanWorker rooted [] comps
    let joined := List.intercalate ['/'] out
    if rooted then '/' :: joined
    else if joined = [] then ['.'] else joined

/-- Models Go path.Base per its documentation: the last element of the
path after trailing slashes are removed; the empty path gives the dot
path and an all-slash path gives a single slash. -/
def goPathBase (p : List Char) : List Char :=
  if p = [] then ['.']
  else
    let q := p.reverse.dropWhile fun c => decide (c = '/')
    if q = [] then ['/']
    else (q.takeWhile fun c => decide (c ≠ '/')).reverse

/-- Models the first component of Go path.Split: everything up to and
including the final slash (empty when the path has no slash). -/
def goPathSplitDir (p : List Char) : List Char :=
  (p.reverse.dropWhile fun c => decide (c ≠ '/')).reverse

/-- Models Go path.Dir per its implementation: Split, then Clean the
directory part. -/
def goPathDir (p : List Char) : List Char := goPathClean (goPathSplitDir p)

/-- Service base field of UnaryInterceptor (log.go line 46): the Go
expression path.Dir(info.FullMethod)[1:]. -/
def unaryServiceField (fullMethod : List Char) : List Char :=
  (goPathDir fullMethod).drop 1

/-- Method base field of UnaryInterceptor (log.go line 47):
path.Base(info.FullMethod). -/
def unaryMethodField (fullMethod : List Char) : List Char :=
  goPathBase fullMethod

/-- Service base field of StreamInterceptor (log.go line 89):
path.Dir(info.FullMethod)[1:]. -/
def streamServiceField (fullMethod : List Char) : List Char :=
  (goPathDir fullMethod).drop 1

/-- Method base field of StreamInterceptor (log.go line 90):
path.Base(info.FullMethod). -/
def streamMethodField (fullMethod : List Char) : List Char :=
  goPathBase fullMethod

example : unaryServiceField "/grpc.gateway.wrapper.K8S/ReadinessProbe".toList
    = "grpc.gateway.wrapper.K8S".toList := by decide

example : unaryMethodField "/grpc.gateway.wrapper.K8S/ReadinessProbe".toList
    = "ReadinessProbe".toList := by decide

theorem dropWhile_eq_self_of_head_not {p : Char → Bool} {a : Char} {l : List Char}
    (h : p a = false) : (a :: l).dropWhile p = a :: l := by
  simp [List.dropWhile, h]

theorem dropWhile_ne_append (c : Char) (xs ys : List Char) (h : c ∉ xs) :
    (xs ++ c :: ys).dropWhile (fun a => decide (a ≠ c)) = c :: ys := by
  induction xs with
  | nil => simp [List.dropWhile]
  | cons a t ih =>
    have ha : a ≠ c := fun hac => h (hac ▸ List.mem_cons_self a t)
    have ht : c ∉ t := fun hct => h (List.mem_cons_of_mem a hct)
    rw [List.cons_append, List.dropWhile_cons, if_pos (by simp [ha]), ih ht]

theorem takeWhile_ne_append (c : Char) (xs ys : List Char) (h : c ∉ xs) :
    (xs ++ c :: ys).takeWhile (fun a => decide (a ≠ c)) = xs := by
  induction xs with
  | nil => simp [List.takeWhile]
  | cons a t ih =>
    have ha : a ≠ c := fun hac => h (hac ▸ List.mem_cons_self a t)
    have ht : c ∉ t := fun hct => h (List.mem_cons_of_mem a hct)
    rw [List.cons_append, List.takeWhile_cons, if_pos (by simp [ha]), ih ht]

theorem splitSlash_append_slash (s : List Char) (h : '/' ∉ s) :
    splitSlash (s ++ ['/']) = [s, []] := by
  induction s with
  | nil => simp [splitSlash]
  | cons a t ih =>
    have ha : a ≠ '/' := fun hac => h (hac ▸ List.mem_cons_self a t)
    have ht : '/' ∉ t := fun hct => h (List.mem_cons_of_mem a hct)
    rw [List.cons_append]
    rw [show splitSlash (a :: (t ++ ['/'])) = match splitSlash (t ++ ['/']) with
        | [] => [[a]]
        | w :: ws => (a :: w) :: ws from by
      conv_lhs => rw [splitSlash.eq_def]
      cases t ++ ['/'] <;> simp_all [splitSlash]
      ]
    rw [ih ht]

theorem goPathBase_wf (s m : List Char) (hm : m ≠ []) (hmns : '/' ∉ m) :
    goPathBase ('/' :: s ++ '/' :: m) = m := by
  obtain ⟨b, t, hbt⟩ := List.exists_cons_of_ne_nil
    (fun h => hm (List.reverse_eq_nil_iff.mp h))
  have hb : b ≠ '/' := by
    intro hbeq
    apply hmns
    rw [← List.mem_reverse, hbt, hbeq]
    exact List.mem_cons_self _ _
  have hrev : ('/' :: s ++ '/' :: m).reverse = b :: (t ++ '/' :: (s.reverse ++ ['/'])) := by
    have : ('/' :: s ++ '/' :: m).reverse = m.reverse ++ '/' :: (s.reverse ++ ['/']) := by
      simp
    rw [this, hbt]
    simp
  simp only [goPathBase]
  rw [if_neg (by simp), hrev,
    dropWhile_eq_self_of_head_not (by simp [hb]),
    if_neg (by simp),
    show b :: (t ++ '/' :: (s.reverse ++ ['/'])) = (b :: t) ++ '/' :: (s.reverse ++ ['/'])
      from rfl,
    takeWhile_ne_append _ _ _ (by rw [← hbt]; simp [hmns]), ← hbt]
  simp

theorem goPathSplitDir_wf (s m : List Char) (hmns : '/' ∉ m) :
    goPathSplitDir ('/' :: s ++ '/' :: m) = '/' :: (s ++ ['/']) := by
  have hrev : ('/' :: s ++ '/' :: m).reverse = m.reverse ++ '/' :: (s.reverse ++ ['/']) := by
    simp
  simp only [goPathSplitDir]
  rw [hrev, dropWhile_ne_append _ _ _ (by simp [hmns])]
  simp

theorem goPathClean_rooted_single (s : List Char) (hs : s ≠ []) (hsl : '/' ∉ s)
    (hd1 : s ≠ ['.']) (hd2 : s ≠ ['.', '.']) :
    goPathClean ('/' :: (s ++ ['/'])) = '/' :: s := by
  have hsplit : splitSlash ('/' :: (s ++ ['/'])) = [[], s, []] := by
    rw [show splitSlash ('/' :: (s ++ ['/'])) = [] :: splitSlash (s ++ ['/']) from by
      simp [splitSlash]]
    rw [splitSlash_append_slash s hsl]
  have hfilter : ([[], s, []] : List (List Char)).filter
      (fun c => decide (c ≠ [] ∧ c ≠ ['.'])) = [s] := by
    simp [List.filter, decide_eq_true (And.intro hs hd1)]
  have hclean : cleanWorker true [] [s] = [s] := by
    simp [cleanWorker, hd2]
  simp only [goPathClean]
  rw [if_neg (by simp), hsplit, hfilter]
  simp [hclean, List.intercalate]

/-- C9: for a fully-qualified method name of the form /service/method
(nonempty separator-free components, the service not a relative dot
component), both the unary interception path (log.go lines 46-47) and
the streaming interception path (log.go lines 89-90) derive the base log
fields by splitting on the last path separator: the service part is what
precedes it with the leading separator removed, the method part is what
follows it, and the derivation functions of the two paths are equal. -/
theorem c9_service_method_split (s m : List Char)
    (hs : s ≠ []) (hm : m ≠ []) (hsl : '/' ∉ s) (hml : '/' ∉ m)
    (hd1 : s ≠ ['.']) (hd2 : s ≠ ['.', '.']) :
    unaryServiceField ('/' :: s ++ '/' :: m) = s ∧
    unaryMethodField ('/' :: s ++ '/' :: m) = m ∧
    streamServiceField = unaryServiceField ∧
    streamMethodField = unaryMethodField := by
  refine ⟨?_, goPathBase_wf s m hm hml, rfl, rfl⟩
  simp only [unaryServiceField, goPathDir]
  rw [goPathSplitDir_wf s m hml, goPathClean_rooted_single s hs hsl hd1 hd2]
  simp

/-- Witness for c9_service_method_split at the repository's readiness
probe method name. -/
theorem c9_service_method_split_witness :
    unaryServiceField
        ('/' :: "grpc.gateway.wrapper.K8S".toList ++ '/' :: "ReadinessProbe".toList)
      = "grpc.gateway.wrapper.K8S".toList ∧
    unaryMethodField
        ('/' :: "grpc.gateway.wrapper.K8S".toList ++ '/' :: "ReadinessProbe".toList)
      = "ReadinessProbe".toList ∧
    streamServiceField = unaryServiceField ∧
    streamMethodField = unaryMethodField :=
  c9_service_method_split "grpc.gateway.wrapper.K8S".toList "ReadinessProbe".toList
    (by decide) (by decide) (by decide) (by decide) (by decide) (by decide)

/- ------------------------------------------------------------------ -/
/- Peer-address log field (logRequest, log.go lines 136-151).          -/
/- ------------------------------------------------------------------ -/

/-- Trims square brackets from both ends of an address, modelling the
strings.TrimFunc call of logRequest (log.go lines 143-148). -/
def trimBrackets (l : List Char) : List Char :=
  ((l.dropWhile fun c => decide (c = '[' ∨ c = ']')).reverse.dropWhile
    fun c => decide (c = '[' ∨ c = ']')).reverse

/-- The part of an address before its last colon: the Go slice up to
strings.LastIndexByte of the colon (log.go line 144), modelled for
addresses containing a colon; on a colon-free address the Go code would
slice with index -1 and abort, a case a TCP peer address never produces. -/
def beforeLastColon (l : List Char) : List Char :=
  ((l.reverse.dropWhile fun c => decide (c ≠ ':')).drop 1).reverse

/-- Peer log field computed by logRequest (log.go lines 136-151) from the
transport peer address: absent when the address is empty or begins with
127.0.0.1 or localhost, otherwise the address up to its last colon with
surrounding square brackets trimmed. -/
def peerLogField (address : List Char) : Option (List Char) :=
  if address ≠ [] ∧
      "127.0.0.1".toList.isPrefixOf address = false ∧
      "localhost".toList.isPrefixOf address = false then
    some (trimBrackets (beforeLastColon address))
  else none

/-- Modelled from the spec: "suppressed entirely for loopback/localhost
addresses".  An address is loopback/localhost when its host part is the
IPv4 loopback 127.0.0.1, the name localhost, or the IPv6 loopback ::1. -/
def loopbackAddressSpec (address : List Char) : Bool :=
  "127.0.0.1".toList.isPrefixOf address ||
  "localhost".toList.isPrefixOf address ||
  trimBrackets (beforeLastColon address) == "::1".toList

/-- C7 counterexample: a call arriving from the IPv6 loopback address
produces a peer field even though the address is a loopback address, so
the peer field is not omitted for every loopback/localhost peer: the
suppression test of log.go lines 139-141 only checks the string prefixes
127.0.0.1 and localhost. -/
theorem c7_loopback_counterexample :
    loopbackAddressSpec "[::1]:54321".toList = true ∧
    peerLogField "[::1]:54321".toList = some "::1".toList := by
  decide

theorem isPrefixOf_append_colon (pre : List Char) :
    ∀ host port : List Char, ':' ∉ pre →
      pre.isPrefixOf (host ++ ':' :: port) = pre.isPrefixOf host := by
  induction pre with
  | nil =>
    intro host port _
    simp [List.isPrefixOf]
  | cons a p ih =>
    intro host port hpre
    have ha : a ≠ ':' := fun h => hpre (h ▸ List.mem_cons_self a p)
    have hp : ':' ∉ p := fun h => hpre (List.mem_cons_of_mem a h)
    cases host with
    | nil => simp [List.isPrefixOf, ha]
    | cons b h2 => simp [List.isPrefixOf, ih h2 port hp]

theorem beforeLastColon_append (host port : List Char) (hp : ':' ∉ port) :
    beforeLastColon (host ++ ':' :: port) = host := by
  have hrev : (host ++ ':' :: port).reverse = port.reverse ++ ':' :: host.reverse := by
    simp
  simp only [beforeLastColon]
  rw [hrev, dropWhile_ne_append _ _ _ (by simp [hp])]
  simp

/-- C7 amended: for a peer address host:port whose port part is
colon-free and whose host part is nonempty, the peer log field is omitted
exactly when the address begins with 127.0.0.1 or localhost (IPv4
loopback and the localhost name, but not other loopback forms such as the
IPv6 ::1), and otherwise equals the host part with port and surrounding
square brackets stripped. -/
theorem c7_peer_field_amended (host port : List Char)
    (hp : ':' ∉ port) :
    (("127.0.0.1".toList.isPrefixOf host = true ∨
      "localhost".toList.isPrefixOf host = true) →
      peerLogField (host ++ ':' :: port) = none) ∧
    ("127.0.0.1".toList.isPrefixOf host = false →
      "localhost".toList.isPrefixOf host = false →
      peerLogField (host ++ ':' :: port) = some (trimBrackets host)) := by
  have h127 : "127.0.0.1".toList.isPrefixOf (host ++ ':' :: port)
      = "127.0.0.1".toList.isPrefixOf host :=
    isPrefixOf_append_colon _ host port (by decide)
  have hloc : "localhost".toList.isPrefixOf (host ++ ':' :: port)
      = "localhost".toList.isPrefixOf host :=
    isPrefixOf_append_colon _ host port (by decide)
  constructor
  · intro hpre
    simp only [peerLogField]
    rw [if_neg]
    intro ⟨_, h1, h2⟩
    rcases hpre with h | h
    · rw [h127, h] at h1
      exact Bool.true_eq_false.mp h1
    · rw [hloc, h] at h2
      exact Bool.true_eq_false.mp h2
  · intro h1 h2
    simp only [peerLogField]
    rw [if_pos, beforeLastColon_append host port hp]
    refine ⟨by simp, ?_, ?_⟩
    · rw [h127]; exact h1
    · rw [hloc]; exact h2

/-- Witness for c7_peer_field_amended at a public peer address and at the
IPv4 loopback address of the readiness-probe scenario. -/
theorem c7_peer_field_amended_witness :
    (("127.0.0.1".toList.isPrefixOf "10.0.0.7".toList = true ∨
      "localhost".toList.isPrefixOf "10.0.0.7".toList = true) →
      peerLogField ("10.0.0.7".toList ++ ':' :: "443".toList) = none) ∧
    ("127.0.0.1".toList.isPrefixOf "10.0.0.7".toList = false →
      "localhost".toList.isPrefixOf "10.0.0.7".toList = false →
      peerLogField ("10.0.0.7".toList ++ ':' :: "443".toList)
        = some (trimBrackets "10.0.0.7".toList)) :=
  c7_peer_field_amended "10.0.0.7".toList "443".toList (by decide)

/- ------------------------------------------------------------------ -/
/- SHA-1 (crypto/sha1) and URL-safe base64 (encoding/base64), modelled -/
/- from their standards, on byte lists.                                -/
/- ------------------------------------------------------------------ -/

/-- Reduction of a natural number to a 32-bit word. -/
def w32 (x : Nat) : Nat := x % 4294967296

/-- Left rotation of a 32-bit word by n bits. -/
def rotl32 (n x : Nat) : Nat := w32 ((x <<< n) ||| (x >>> (32 - n)))

/-- Round function of SHA-1 (FIPS 180 function f_t on words b, c, d). -/
def sha1F (t b c d : Nat) : Nat :=
  if t < 20 then (b &&& c) ||| ((b ^^^ 4294967295) &&& d)
  else if t < 40 then b ^^^ c ^^^ d
  else if t < 60 then (b &&& c) ||| (b &&& d) ||| (c &&& d)
  else b ^^^ c ^^^ d

/-- Round constants of SHA-1 (FIPS 180 constants K_t). -/
def sha1K (t : Nat) : Nat :=
  if t < 20 then 0x5A827999
  else if t < 40 then 0x6ED9EBA1
  else if t < 60 then 0x8F1BBCDC
  else 0xCA62C1D6

/-- Big-endian byte expansion of a number into k bytes. -/
def beBytes : Nat → Nat → List Nat
  | 0, _ => []
  | k + 1, n => beBytes k (n / 256) ++ [n % 256]

/-- Packs bytes into big-endian 32-bit words. -/
def bytesToWordsBE : List Nat → List Nat
  | b0 :: b1 :: b2 :: b3 :: rest =>
    (((b0 * 256 + b1) * 256 + b2) * 256 + b3) :: bytesToWordsBE rest
  | _ => []

/-- Extends a 16-word block schedule by the given number of words
(FIPS 180: W_t is the left rotation by one of the exclusive-or of
W at t-3, t-8, t-14 and t-16). -/
def sha1Extend : Nat → List Nat → List Nat
  | 0, ws => ws
  | n + 1, ws =>
    let len := ws.length
    let w := rotl32 1 ((ws.getD (len - 3) 0) ^^^ (ws.getD (len - 8) 0) ^^^
      (ws.getD (len - 14) 0) ^^^ (ws.getD (len - 16) 0))
    sha1Extend n (ws ++ [w])

/-- Working state of a SHA-1 compression. -/
structure Sha1State where
  a : Nat
  b : Nat
  c : Nat
  d : Nat
  e : Nat
  deriving DecidableEq, Repr

/-- One SHA-1 round on the working state with round index t and schedule
word w. -/
def sha1Round (st : Sha1State) (t w : Nat) : Sha1State :=
  ⟨w32 (rotl32 5 st.a + sha1F t st.b st.c st.d + st.e + sha1K t + w),
   st.a, rotl32 30 st.b, st.c, st.d⟩

/-- SHA-1 compression of one 16-word block into the 5-word chaining
state. -/
def sha1Compress (h : List Nat) (block : List Nat) : List Nat :=
  let ws := sha1Extend 64 block
  let h0 := h.getD 0 0
  let h1 := h.getD 1 0
  let h2 := h.getD 2 0
  let h3 := h.getD 3 0
  let h4 := h.getD 4 0
  let fin := ws.enum.foldl (fun st p => sha1Round st p.1 p.2) ⟨h0, h1, h2, h3, h4⟩
  [w32 (h0 + fin.a), w32 (h1 + fin.b), w32 (h2 + fin.c),
   w32 (h3 + fin.d), w32 (h4 + fin.e)]

/-- SHA-1 padding: append the 0x80 byte, zero bytes up to 56 modulo 64,
then the bit length as an eight-byte big-endian number. -/
def sha1Pad (msg : List Nat) : List Nat :=
  let len := msg.length
  let zeros := (55 + 64 - len % 64) % 64
  msg ++ 0x80 :: List.replicate zeros 0 ++ beBytes 8 (len * 8)

/-- Splits a padded byte list into 16-word blocks (fuel-driven on the
byte count). -/
def sha1Blocks : Nat → List Nat → List (List Nat)
  | 0, _ => []
  | _, [] => []
  | n + 1, bytes => bytesToWordsBE (bytes.take 64) :: sha1Blocks n (bytes.drop 64)

/-- SHA-1 digest (20 bytes) of a byte list, modelled from FIPS 180 as
implemented by Go's crypto/sha1. -/
def sha1 (msg : List Nat) : List Nat :=
  let padded := sha1Pad msg
  let hs := (sha1Blocks padded.length padded).foldl sha1Compress
    [0x67452301, 0xEFCDAB89, 0x98BADCFE, 0x10325476, 0xC3D2E1F0]
  hs.foldr (fun w acc => beBytes 4 w ++ acc) []

/-- Alphabet of the URL-safe base64 encoding of RFC 4648, as used by Go's
base64.URLEncoding. -/
def b64urlAlphabet : List Char :=
  "ABCDEFGHIJKLMNOPQRSTUVWXYZabcdefghijklmnopqrstuvwxyz0123456789-_".toList

/-- Character for a 6-bit value in the URL-safe base64 alphabet. -/
def b64char (n : Nat) : Char := b64urlAlphabet.getD n 'A'

/-- Padded URL-safe base64 encoding of a byte list (RFC 4648; Go's
base64.URLEncoding.EncodeToString). -/
def base64urlEncode : List Nat → List Char
  | [] => []
  | [b0] => [b64char (b0 / 4), b64char (b0 % 4 * 16), '=', '=']
  | [b0, b1] => [b64char (b0 / 4), b64char (b0 % 4 * 16 + b1 / 16),
                 b64char (b1 % 16 * 4), '=']
  | b0 :: b1 :: b2 :: rest =>
    b64char (b0 / 4) :: b64char (b0 % 4 * 16 + b1 / 16) ::
    b64char (b1 % 16 * 4 + b2 / 64) :: b64char (b2 % 64) ::
    base64urlEncode rest

/-- Bytes of an ASCII string, as Go's byte conversion of a string (the
metadata values in question are ASCII). -/
def strToBytes (s : String) : List Nat := s.toList.map Char.toNat

example : sha1 (strToBytes "abc") =
    [0xa9, 0x99, 0x3e, 0x36, 0x47, 0x06, 0x81, 0x6a, 0xba, 0x3e,
     0x25, 0x71, 0x78, 0x50, 0xc2, 0x6c, 0x9c, 0xd0, 0xd8, 0x9d] := by decide

example : String.mk (base64urlEncode (sha1 (strToBytes "abc")))
    = "qZk-NkcGgWq6PiVxeFDCbJzQ2J0=" := by decide

/- ------------------------------------------------------------------ -/
/- Metadata fields and the request identifier (logRequest, log.go      -/
/- lines 114-134).                                                     -/
/- ------------------------------------------------------------------ -/

/-- Values stored in the log field map: Go strings or string slices
(metadata values are string slices). -/
inductive FieldVal where
  | vStr (s : String)
  | vStrs (vs : List String)
  deriving DecidableEq, Repr

/-- Insertion into the field map with Go map semantics (assignment
overwrites an existing key). -/
def mapSet (m : List (String × FieldVal)) (k : String) (v : FieldVal) :
    List (String × FieldVal) :=
  if m.any (fun p => p.1 == k) then
    m.map (fun p => if p.1 == k then (k, v) else p)
  else m ++ [(k, v)]

/-- Lookup in the field map. -/
def mapGet (m : List (String × FieldVal)) (k : String) : Option FieldVal :=
  (m.find? (fun p => p.1 == k)).map (fun p => p.2)

/-- Go fmt verb %s applied to a field value: a string prints as itself, a
string slice prints as its elements space-joined inside square
brackets. -/
def goFmtValue : FieldVal → String
  | .vStr s => s
  | .vStrs vs => "[" ++ String.intercalate " " vs ++ "]"

/-- Metadata portion of logRequest (log.go lines 117-134): every metadata
key/value pair is copied into the field map, then a request identifier is
added when a user-agent or x-forwarded-for entry exists; the identifier
is the URL-safe base64 encoding of the SHA-1 digest of the Sprintf
concatenation of the looked-up values (each a string slice, printed by
the %s verb). -/
def logRequestMDFields (md : Option (List (String × List String)))
    (fields : List (String × FieldVal)) : List (String × FieldVal) :=
  match md with
  | none => fields
  | some m =>
    let fields := m.foldl (fun f kv => mapSet f kv.1 (.vStrs kv.2)) fields
    let rid1 :=
      match mapGet fields "user-agent" with
      | some v => "" ++ goFmtValue v
      | none => ""
    let requestID :=
      match mapGet fields "x-forwarded-for" with
      | some v => rid1 ++ goFmtValue v
      | none => rid1
    if requestID ≠ "" then
      mapSet fields ":request-id"
        (.vStr (String.mk (base64urlEncode (sha1 (strToBytes requestID)))))
    else fields

/-- C3 counterexample: for inbound metadata carrying only
user-agent curl/7.0, the stored request identifier hashes the Go-printed
form of the metadata value slice, the bracketed string; it differs from
the base64-url SHA-1 of the plain concatenation of the metadata values,
which the claim prescribes. -/
theorem c3_request_id_counterexample :
    mapGet (logRequestMDFields (some [("user-agent", ["curl/7.0"])]) [])
        ":request-id"
      = some (.vStr "59p51CYH-721rP39nFvaSumVr4w=") ∧
    String.mk (base64urlEncode (sha1 (strToBytes "curl/7.0")))
      = "czFtNaEuLuEXNguWDDVQudx_ijk=" ∧
    String.mk (base64urlEncode (sha1 (strToBytes "[curl/7.0]")))
      = "59p51CYH-721rP39nFvaSumVr4w=" ∧
    some (FieldVal.vStr "59p51CYH-721rP39nFvaSumVr4w=")
      ≠ some (FieldVal.vStr "czFtNaEuLuEXNguWDDVQudx_ijk=") := by
  decide

theorem append_brackets_ne_empty (y x : String) : y ++ ("[" ++ x ++ "]") ≠ "" := by
  intro h
  have h2 := congrArg String.length h
  rw [String.length_append, String.length_append, String.length_append] at h2
  rw [show "[".length = 1 from rfl, show "]".length = 1 from rfl,
    show "".length = 0 from rfl] at h2
  omega

/-- C3 amended: the request identifier is the base64-url encoding of the
SHA-1 digest of the concatenation of the Go-printed forms of the
user-agent and x-forwarded-for metadata value slices (a slice prints
bracketed and space-joined, so a single value v contributes the bracketed
string rather than v itself), an absent key contributing the empty
string, and no identifier is added when both keys are absent. -/
theorem c3_request_id_amended (ua xff : List String) :
    mapGet (logRequestMDFields
        (some [("user-agent", ua), ("x-forwarded-for", xff)]) []) ":request-id"
      = some (.vStr (String.mk (base64urlEncode (sha1 (strToBytes
          (("" ++ goFmtValue (.vStrs ua)) ++ goFmtValue (.vStrs xff))))))) ∧
    mapGet (logRequestMDFields (some [("user-agent", ua)]) []) ":request-id"
      = some (.vStr (String.mk (base64urlEncode (sha1 (strToBytes
          ("" ++ goFmtValue (.vStrs ua))))))) ∧
    mapGet (logRequestMDFields (some []) []) ":request-id" = none := by
  have h1 : ("user-agent" == ":request-id") = false := by decide
  have h2 : ("x-forwarded-for" == ":request-id") = false := by decide
  have h3 : ("user-agent" == "x-forwarded-for") = false := by decide
  refine ⟨?_, ?_, by decide⟩
  · simp only [logRequestMDFields, List.foldl, mapSet, mapGet, List.any_nil,
      List.any_cons, List.find?, goFmtValue]
    norm_num
    simp [h1, h2, h3]
  · simp only [logRequestMDFields, List.foldl, mapSet, mapGet, List.any_nil,
      List.any_cons, List.find?, goFmtValue]
    norm_num
    simp [h1, h2, h3]

/- ------------------------------------------------------------------ -/
/- Form codec (encoding/http/form.go, decodeForm).                     -/
/- ------------------------------------------------------------------ -/

/-- Hexadecimal value of a character, as url.QueryUnescape accepts. -/
def hexVal (c : Char) : Option Nat :=
  if '0' ≤ c ∧ c ≤ '9' then some (c.toNat - 48)
  else if 'a' ≤ c ∧ c ≤ 'f' then some (c.toNat - 87)
  else if 'A' ≤ c ∧ c ≤ 'F' then some (c.toNat - 55)
  else none

/-- Models Go url.QueryUnescape: percent escapes decode from two hex
digits, plus decodes to a space, anything else passes through; an
incomplete or invalid escape is an error. -/
def queryUnescape : List Char → Option (List Char)
  | [] => some []
  | '%' :: a :: b :: rest =>
    match hexVal a, hexVal b with
    | some ha, some hb => (queryUnescape rest).map (Char.ofNat (ha * 16 + hb) :: ·)
    | _, _ => none
  | '%' :: _ => none
  | '+' :: rest => (queryUnescape rest).map (' ' :: ·)
  | c :: rest => (queryUnescape rest).map (c :: ·)

/-- Splits a query string on ampersands and semicolons, the separators
url.ParseQuery recognises. -/
def splitQuerySeps : List Char → List (List Char)
  | [] => [[]]
  | '&' :: rest => [] :: splitQuerySeps rest
  | ';' :: rest => [] :: splitQuerySeps rest
  | c :: rest =>
    match splitQuerySeps rest with
    | [] => [[c]]
    | w :: ws => (c :: w) :: ws

/-- Models Go url.ParseQuery: each nonempty separator-delimited segment
splits at its first equals sign into a key and a value, both
query-unescaped; an unescape error fails the parse (url.ParseQuery
reports the error and decodeForm then discards the partial values). -/
def parseQuery (l : List Char) : Option (List (String × String)) :=
  ((splitQuerySeps l).filter (fun seg => decide (seg ≠ []))).foldr
    (fun seg acc =>
      match acc with
      | none => none
      | some ps =>
        let k := seg.takeWhile (fun c => decide (c ≠ '='))
        let v := (seg.dropWhile (fun c => decide (c ≠ '='))).drop 1
        match queryUnescape k, queryUnescape v with
        | some k2, some v2 => some ((String.mk k2, String.mk v2) :: ps)
        | _, _ => none)
    (some [])

/-- Groups parsed key/value pairs by key in first-appearance order, as
url.Values collects them (Go map iteration order is unspecified; the
first-appearance order is one admissible order and the one used
below). -/
def groupQueryPairs (ps : List (String × String)) : List (String × List String) :=
  ps.foldl
    (fun acc kv =>
      if acc.any (fun p => p.1 == kv.1) then
        acc.map (fun p => if p.1 == kv.1 then (p.1, p.2 ++ [kv.2]) else p)
      else acc ++ [(kv.1, [kv.2])])
    []

/-- A message with a string field and an integer field, the shape of the
spec's form-decoding scenario. -/
structure FormTestMsg where
  name : String
  count : Int
  deriving DecidableEq, Repr

/-- The value decodeForm receives: a protobuf-capable message or not. -/
inductive FormTarget where
  | protoMsg (m : FormTestMsg)
  | notProto
  deriving DecidableEq, Repr

/-- Errors of the form decoding path. -/
inductive FormErr where
  | notProtoMessage
  | queryParse
  | fieldPopulation
  deriving DecidableEq, Repr

/-- Decimal digit run to a number; empty or non-digit input fails. -/
def parseDigits (ds : List Char) : Option Nat :=
  if ds = [] then none
  else
    ds.foldl
      (fun acc c => acc.bind fun n =>
        if c.isDigit then some (n * 10 + (c.toNat - 48)) else none)
      (some 0)

/-- Decimal integer parse, as strconv.ParseInt accepts for an int32
protobuf field. -/
def parseDecInt (s : List Char) : Option Int :=
  match s with
  | '-' :: ds => (parseDigits ds).map (fun n => -(n : Int))
  | ds => (parseDigits ds).map (fun n => (n : Int))

/-- Modelled from the spec: grpc-gateway runtime.PopulateQueryParameters
assigns each key's values into the matching message field by name,
mutating the message in place key by key and returning on the first
failure ("FieldPopulationError" for a key naming no message field or a
value that does not convert to the field's declared type); a singular
field rejects multiple values. -/
def populateQueryParams (msg : FormTestMsg)
    (values : List (String × List String)) : FormTestMsg × Option FormErr :=
  values.foldl
    (fun st kv =>
      match st.2 with
      | some _ => st
      | none =>
        match kv with
        | ("name", [v]) => ({ st.1 with name := v }, none)
        | ("count", [v]) =>
          match parseDecInt v.toList with
          | some n => ({ st.1 with count := n }, none)
          | none => (st.1, some .fieldPopulation)
        | _ => (st.1, some .fieldPopulation))
    (msg, none)

/-- decodeForm (form.go lines 44-66): fails when the destination is not a
proto message, reads and parses the body as a query string, then
populates the message via PopulateQueryParameters; the destination
message state is returned alongside the error because population mutates
it in place. -/
def decodeForm (body : String) (v : FormTarget) : FormTarget × Option FormErr :=
  match v with
  | .notProto => (.notProto, some .notProtoMessage)
  | .protoMsg msg =>
    match parseQuery body.toList with
    | none => (.protoMsg msg, some .queryParse)
    | some ps =>
      let res := populateQueryParams msg (groupQueryPairs ps)
      (.protoMsg res.1, res.2)

example : decodeForm "name=foo&count=3" (.protoMsg ⟨"", 0⟩)
    = (.protoMsg ⟨"foo", 3⟩, none) := by decide

/-- C4 counterexample: decoding the body name=foo&count=abc into a fresh
message reports a field-population error, yet the destination message has
been changed (its name field is already foo), so a failed decode does not
leave the destination unchanged. -/
theorem c4_decode_counterexample :
    decodeForm "name=foo&count=abc" (.protoMsg ⟨"", 0⟩)
      = (.protoMsg ⟨"foo", 0⟩, some .fieldPopulation) ∧
    FormTestMsg.mk "foo" 0 ≠ FormTestMsg.mk "" 0 := by
  decide

/-- C4 amended: decoding valid form data whose keys name message fields
and whose values convert populates each named field (name=foo&count=3
gives name foo and count 3); decoding fails with NotAProtoMessage when
the target is not a proto message, with a parse error when the bytes are
not valid URL-encoded form data, and with a field-population error when a
key names no field or a value does not convert; on failure an error is
always reported (never a partial success reported as success), and a
failing single-key body leaves the destination unchanged, but keys
processed before the failing key remain populated. -/
theorem c4_decode_amended (m : FormTestMsg) (body : String) :
    decodeForm "name=foo&count=3" (.protoMsg m) = (.protoMsg ⟨"foo", 3⟩, none) ∧
    decodeForm body .notProto = (.notProto, some .notProtoMessage) ∧
    decodeForm "count=abc" (.protoMsg m) = (.protoMsg m, some .fieldPopulation) ∧
    decodeForm "count=%zz" (.protoMsg m) = (.protoMsg m, some .queryParse) ∧
    decodeForm "bogus=1" (.protoMsg m) = (.protoMsg m, some .fieldPopulation) ∧
    decodeForm "name=foo&count=abc" (.protoMsg m)
      = (.protoMsg { m with name := "foo" }, some .fieldPopulation) := by
  cases m
  exact ⟨rfl, rfl, rfl, rfl, rfl, rfl⟩

/- ------------------------------------------------------------------ -/
/- Default JSON codec (encoding/json/init.go).                         -/
/- ------------------------------------------------------------------ -/

/-- JSON values as projected from a protobuf message's scalar fields. -/
inductive JsonVal where
  | jStr (s : String)
  | jNum (n : Int)
  | jBool (b : Bool)
  deriving DecidableEq, Repr

/-- Marshal options of jsonpb.Marshaler: emit zero-valued fields, and use
original proto field names rather than camel-cased ones. -/
structure MarshalOpts where
  emitDefaults : Bool
  origName : Bool
  deriving DecidableEq, Repr

/-- The options the codec registers process-wide (init.go defaultOpts:
EmitDefaults true, OrigName true). -/
def defaultOpts : MarshalOpts := ⟨true, true⟩

/-- A message with a string field name, an int32 field count_total (JSON
camel-cased countTotal) and a bool field fail, standing for the
messages the codec serves (the repository's ProbeResult has the bool
field fail). -/
structure CodecTestMsg where
  name : String
  countTotal : Int
  fail : Bool
  deriving DecidableEq, Repr

/-- Whether a field value is the protobuf zero value of its type, which
jsonpb omits when EmitDefaults is unset. -/
def isZeroJsonVal : JsonVal → Bool
  | .jStr s => s == ""
  | .jNum n => n == 0
  | .jBool b => b == false

/-- Field table of the test message: original proto name, camel-cased
JSON name, and value projection. -/
def codecMsgFields (m : CodecTestMsg) : List (String × String × JsonVal) :=
  [("name", "name", .jStr m.name),
   ("count_total", "countTotal", .jNum m.countTotal),
   ("fail", "fail", .jBool m.fail)]

/-- Modelled from the documented behaviour of jsonpb.Marshaler as
configured by init.go and invoked by jsonMarshaler.Marshal (init.go lines
43-53): each message field is emitted unless it is zero-valued and
EmitDefaults is unset, keyed by the original proto name when OrigName is
set and the camel-cased name otherwise. -/
def jsonpbMarshalMsg (opts : MarshalOpts) (m : CodecTestMsg) :
    List (String × JsonVal) :=
  (codecMsgFields m).filterMap fun f =>
    if !opts.emitDefaults && isZeroJsonVal f.2.2 then none
    else some (if opts.origName then f.1 else f.2.1, f.2.2)

/-- Modelled from the documented behaviour of jsonpb.Unmarshaler as
invoked by jsonMarshaler.Unmarshal (init.go lines 56-62): fields are read
by either their original or camel-cased name into a zero message; an
unknown key or a type-mismatched value is an error. -/
def jsonpbUnmarshalMsg (kvs : List (String × JsonVal)) :
    Except String CodecTestMsg :=
  kvs.foldlM
    (fun m kv =>
      match kv with
      | ("name", .jStr s) => .ok { m with name := s }
      | ("count_total", .jNum n) => .ok { m with countTotal := n }
      | ("countTotal", .jNum n) => .ok { m with countTotal := n }
      | ("fail", .jBool b) => .ok { m with fail := b }
      | _ => .error "unknown field or mismatched value")
    ⟨"", 0, false⟩

/-- C5: for every message, encoding with the default structured codec
options (EmitDefaults, OrigName) and decoding yields a value equal to the
original; the encoding emits every field, zero-valued fields included,
and keys every field by its original declared name (count_total rather
than the camel-cased countTotal). -/
theorem c5_codec_roundtrip (m : CodecTestMsg) :
    jsonpbUnmarshalMsg (jsonpbMarshalMsg defaultOpts m) = .ok m ∧
    (jsonpbMarshalMsg defaultOpts m).map Prod.fst
      = ["name", "count_total", "fail"] ∧
    (jsonpbMarshalMsg defaultOpts m).length = (codecMsgFields m).length := by
  cases m
  exact ⟨rfl, rfl, rfl⟩

/- ------------------------------------------------------------------ -/
/- Interceptor pipeline (UnaryInterceptor, StreamInterceptor,          -/
/- loggingServerStream).                                               -/
/- ------------------------------------------------------------------ -/

/-- Interceptor configuration flags (log.go lines 28-32). -/
structure InterceptorFlags where
  logStreamRecvMsg : Bool
  logStreamSendMsg : Bool
  logUnaryReqMsg : Bool
  deriving DecidableEq, Repr

/-- Execution contexts as the interceptor manipulates them: the caller's
context, or a derived context with the log-field map attached under the
interceptor's context key (context.WithValue at log.go lines 61 and
99). -/
inductive GoCtx where
  | base (id : Nat)
  | withFields (parent : GoCtx) (fields : List (String × FieldVal))
  deriving DecidableEq, Repr

/-- Log emissions of the interceptor, in order. -/
inductive LogEvent where
  | requestStarted (msg : String)
  | responseFinished (level : Level) (msg : String)
  | streamMsg (level : Level) (direction : String)
  deriving DecidableEq, Repr

/-- Base fields of the unary path (log.go lines 45-48), keyed
gateway-service and gateway-method. -/
def unaryBaseFields (fullMethod : List Char) : List (String × FieldVal) :=
  [("gateway-service", .vStr (String.mk (unaryServiceField fullMethod))),
   ("gateway-method", .vStr (String.mk (unaryMethodField fullMethod)))]

/-- Base fields of the streaming path (log.go lines 88-91), keyed
service and method. -/
def streamBaseFields (fullMethod : List Char) : List (String × FieldVal) :=
  [("service", .vStr (String.mk (streamServiceField fullMethod))),
   ("method", .vStr (String.mk (streamMethodField fullMethod)))]

/-- Peer portion of logRequest applied to a field map: adds the peer
field when the transport peer address yields one. -/
def addPeerField (peerAddress : Option (List Char))
    (fields : List (String × FieldVal)) : List (String × FieldVal) :=
  match peerAddress with
  | some addr =>
    match peerLogField addr with
    | some p => mapSet fields "peer" (.vStr (String.mk p))
    | none => fields
  | none => fields

/-- Field map the unary interceptor accumulates before invoking the
handler: base fields, the request payload when LogUnaryReqMsg is set and
the request is a proto message (log.go lines 51-55), then the metadata,
request-identifier and peer enrichment of logRequest. -/
def unaryCallFields (li : InterceptorFlags)
    (md : Option (List (String × List String))) (fullMethod : List Char)
    (reqField : Option FieldVal) (peerAddress : Option (List Char)) :
    List (String × FieldVal) :=
  let fields0 := unaryBaseFields fullMethod
  let fields1 :=
    if li.logUnaryReqMsg then
      match reqField with
      | some f => mapSet fields0 "gateway-request" f
      | none => fields0
    else fields0
  addPeerField peerAddress (logRequestMDFields md fields1)

/-- Field map the streaming interceptor accumulates (log.go lines
88-99). -/
def streamCallFields (md : Option (List (String × List String)))
    (fullMethod : List Char) (peerAddress : Option (List Char)) :
    List (String × FieldVal) :=
  addPeerField peerAddress (logRequestMDFields md (streamBaseFields fullMethod))

/-- The derived context the unary interceptor hands to the handler
(log.go line 61). -/
def unaryDerivedCtx (li : InterceptorFlags) (ctx : GoCtx)
    (md : Option (List (String × List String))) (fullMethod : List Char)
    (reqField : Option FieldVal) (peerAddress : Option (List Char)) : GoCtx :=
  .withFields ctx (unaryCallFields li md fullMethod reqField peerAddress)

/-- The derived context the streaming interceptor carries in the wrapped
stream (log.go line 99). -/
def streamDerivedCtx (ctx : GoCtx)
    (md : Option (List (String × List String))) (fullMethod : List Char)
    (peerAddress : Option (List Char)) : GoCtx :=
  .withFields ctx (streamCallFields md fullMethod peerAddress)

/-- UnaryInterceptor (log.go lines 36-70): builds the field map, logs the
request at info, invokes the handler on the derived context, logs the
response at the severity of the resulting status code, and returns the
handler's response and error. -/
def unaryInterceptor {Req Resp : Type} (li : InterceptorFlags) (ctx : GoCtx)
    (md : Option (List (String × List String))) (fullMethod : List Char)
    (req : Req) (reqField : Option FieldVal) (peerAddress : Option (List Char))
    (handler : GoCtx → Req → Resp × Option GrpcErr) :
    (Resp × Option GrpcErr) × List LogEvent :=
  let res := handler (unaryDerivedCtx li ctx md fullMethod reqField peerAddress) req
  (res,
   [.requestStarted "request (unary)",
    .responseFinished (DefaultCodeToLevel (statusCode res.2)) "response (unary)"])

/-- StreamInterceptor (log.go lines 74-110): same shape on the streaming
path, returning the handler's error. -/
def streamInterceptor (li : InterceptorFlags) (ctx : GoCtx)
    (md : Option (List (String × List String))) (fullMethod : List Char)
    (peerAddress : Option (List Char))
    (handler : GoCtx → Option GrpcErr) : Option GrpcErr × List LogEvent :=
  let err := handler (streamDerivedCtx ctx md fullMethod peerAddress)
  (err,
   [.requestStarted "request (stream)",
    .responseFinished (DefaultCodeToLevel (statusCode err)) "response (stream)"])

/-- loggingServerStream.SendMsg (log.go lines 209-215): forwards to the
underlying stream's SendMsg, optionally logs the message, and returns the
underlying error. -/
def loggingStreamSendMsg {Msg : Type} (li : InterceptorFlags)
    (sendImpl : Msg → Option GrpcErr) (m : Msg) :
    Option GrpcErr × List LogEvent :=
  let err := sendImpl m
  (err,
   if li.logStreamSendMsg then
     [.streamMsg (DefaultCodeToLevel (statusCode err)) "StreamSend"]
   else [])

/-- loggingServerStream.RecvMsg (log.go lines 219-225): forwards to the
underlying stream's RecvMsg, optionally logs the message, and returns the
underlying error. -/
def loggingStreamRecvMsg {Msg : Type} (li : InterceptorFlags)
    (recvImpl : Msg → Option GrpcErr) (m : Msg) :
    Option GrpcErr × List LogEvent :=
  let err := recvImpl m
  (err,
   if li.logStreamRecvMsg then
     [.streamMsg (DefaultCodeToLevel (statusCode err)) "StreamRecv"]
   else [])

/-- C10: the interception pipeline is transparent to call results: for
every handler, context, metadata, peer and request, UnaryInterceptor
returns exactly the response/error pair the handler produced on the
derived context; StreamInterceptor returns exactly the stream handler's
error; and the logging stream wrapper's SendMsg and RecvMsg return
exactly the underlying stream's error, for every setting of the three
logging flags. -/
theorem c10_interceptor_transparency {Req Resp Msg : Type}
    (li : InterceptorFlags) (ctx : GoCtx)
    (md : Option (List (String × List String))) (fullMethod : List Char)
    (req : Req) (reqField : Option FieldVal) (peerAddress : Option (List Char))
    (handler : GoCtx → Req → Resp × Option GrpcErr)
    (streamHandler : GoCtx → Option GrpcErr)
    (sendImpl : Msg → Option GrpcErr) (recvImpl : Msg → Option GrpcErr)
    (m : Msg) :
    (unaryInterceptor li ctx md fullMethod req reqField peerAddress handler).1
      = handler (unaryDerivedCtx li ctx md fullMethod reqField peerAddress) req ∧
    (streamInterceptor li ctx md fullMethod peerAddress streamHandler).1
      = streamHandler (streamDerivedCtx ctx md fullMethod peerAddress) ∧
    (loggingStreamSendMsg li sendImpl m).1 = sendImpl m ∧
    (loggingStreamRecvMsg li recvImpl m).1 = recvImpl m :=
  ⟨rfl, rfl, rfl, rfl⟩

/- ------------------------------------------------------------------ -/
/- Service host construction (server.New).                             -/
/- ------------------------------------------------------------------ -/

/-- Go contexts as the server package uses them: some root context or a
cancelable context derived from a parent (context.WithCancel). -/
inductive CtxModel where
  | root (id : Nat)
  | withCancel (parent : CtxModel)
  deriving DecidableEq, Repr

/-- The http.Server value New constructs: bind address, handler and the
three package-level timeouts. -/
structure HttpServerModel (H : Type) where
  addr : String
  handler : H
  idleTimeout : Nat
  readTimeout : Nat
  writeTimeout : Nat
  deriving DecidableEq, Repr

/-- The Server value New returns: the derived cancelable context, the
gRPC server handle, the constructed HTTP server and the completion
barrier (a fresh wait group, counter zero). -/
structure ServerModel (H G : Type) where
  ctx : CtxModel
  grpcServer : G
  httpServer : HttpServerModel H
  wg : Nat
  deriving DecidableEq, Repr

/-- server.New (server package, New function): fails when the gRPC server
handle is nil, otherwise derives a cancelable context from the given one
and assembles the Server with the configured REST bind address, the given
handler and the package timeout values. -/
def serverNew {H G : Type} (ctx : CtxModel) (handler : H)
    (grpcServer : Option G) (restAddress : String)
    (readTimeout writeTimeout idleTimeout : Nat) :
    Except String (ServerModel H G) :=
  match grpcServer with
  | none => .error "nil grpcServer value passed"
  | some g =>
    .ok
      { ctx := .withCancel ctx
        grpcServer := g
        httpServer :=
          { addr := restAddress
            handler := handler
            idleTimeout := idleTimeout
            readTimeout := readTimeout
            writeTimeout := writeTimeout }
        wg := 0 }

/-- C8: creating the service host fails exactly when the RPC server
handle is absent; when it is present, creation succeeds and the returned
host holds the given HTTP handler, the configured REST bind address and
timeouts, the given gRPC server, a zero completion barrier, and a
cancelable execution context derived from the one passed in. -/
theorem c8_server_new {H G : Type} (ctx : CtxModel) (handler : H)
    (grpcServer : Option G) (restAddress : String)
    (readTimeout writeTimeout idleTimeout : Nat) :
    ((serverNew ctx handler grpcServer restAddress readTimeout writeTimeout
        idleTimeout).isOk = false ↔ grpcServer = none) ∧
    (∀ g, grpcServer = some g →
      serverNew ctx handler grpcServer restAddress readTimeout writeTimeout
          idleTimeout
        = .ok
            { ctx := .withCancel ctx
              grpcServer := g
              httpServer :=
                { addr := restAddress
                  handler := handler
                  idleTimeout := idleTimeout
                  readTimeout := readTimeout
                  writeTimeout := writeTimeout }
              wg := 0 }) := by
  constructor
  · cases grpcServer <;> simp [serverNew, Except.isOk, Except.toBool]
  · intro g hg
    subst hg
    rfl

/-- Witness for c8_server_new at concrete dependencies: a present gRPC
handle yields the fully assembled host. -/
theorem c8_server_new_witness :
    serverNew (H := Nat) (G := Nat) (.root 0) 7 (some 3) ":80" 300 300 300
      = .ok
          { ctx := .withCancel (.root 0)
            grpcServer := 3
            httpServer :=
              { addr := ":80"
                handler := 7
                idleTimeout := 300
                readTimeout := 300
                writeTimeout := 300 }
            wg := 0 } :=
  (c8_server_new (.root 0) 7 (some 3) ":80" 300 300 300).2 3 rfl

/- ------------------------------------------------------------------ -/
/- Service host lifecycle (server.ListenAndServe, server.Shutdown):    -/
/- an interleaving small-step model of the listener goroutines, the    -/
/- shutdown fan-out goroutines and the Shutdown caller.                -/
/- ------------------------------------------------------------------ -/

/-- Program counter of a listener goroutine of ListenAndServe: about to
bind, serving, exited its serve loop, or crashed on a fatal error. -/
inductive ListenerPc where
  | init
  | serving
  | exited
  | crashed
  deriving DecidableEq, Repr

/-- Program counter of a shutdown fan-out goroutine (the GracefulStop
task and the bounded HTTP drain task). -/
inductive TaskPc where
  | idle
  | running
  | finished
  deriving DecidableEq, Repr

/-- Program counter of the Shutdown caller. -/
inductive MainPc where
  | running
  | waitingBarrier
  | returned
  deriving DecidableEq, Repr

/-- The fatal errors the listener goroutines wrap and raise. -/
inductive FatalErr where
  | grpcBind
  | grpcServe
  | httpServe
  deriving DecidableEq, Repr

/-- Shared state of the service host: the cancellation flag of the shared
context, the wait-group counter, process liveness, the recorded fatal
error, the goroutine program counters, and whether each listener is
accepting connections. -/
structure HostState where
  cancelled : Bool
  wg : Nat
  processAlive : Bool
  fatal : Option FatalErr
  grpcPc : ListenerPc
  httpPc : ListenerPc
  grpcAccepting : Bool
  httpAccepting : Bool
  watcherFired : Bool
  stopPc : TaskPc
  drainPc : TaskPc
  mainPc : MainPc
  deriving DecidableEq, Repr

/-- State right after ListenAndServe has run its synchronous body: the
wait group holds the two listener tasks (wg.Add(1) before each go
statement), both listener goroutines are about to bind, the shutdown
watcher is armed on the shared context, and nothing is cancelled. -/
def initialHost : HostState :=
  { cancelled := false, wg := 2, processAlive := true, fatal := none,
    grpcPc := .init, httpPc := .init, grpcAccepting := false,
    httpAccepting := false, watcherFired := false, stopPc := .idle,
    drainPc := .idle, mainPc := .running }

/-- Interleaved small steps of the host.  Listener failure steps model
the cancel-then-panic sequence of ListenAndServe (the deferred wg.Done
runs while the goroutine unwinds and the panic kills the process);
listener exit steps model Serve returning after GracefulStop
or ListenAndServe returning ErrServerClosed after Shutdown, closing the
listener; the watcher models the context-done goroutine that spawns the
two detached shutdown tasks; Shutdown models cancel followed by
wg.Wait. -/
inductive HostStep : HostState → HostState → Prop where
  | grpcListenOk (s : HostState) (halive : s.processAlive = true)
      (hpc : s.grpcPc = .init) :
      HostStep s { s with grpcPc := .serving, grpcAccepting := true }
  | grpcListenFail (s : HostState) (halive : s.processAlive = true)
      (hpc : s.grpcPc = .init) :
      HostStep s { s with
        grpcPc := .crashed
        grpcAccepting := false
        cancelled := true
        fatal := some .grpcBind
        processAlive := false
        wg := s.wg - 1 }
  | grpcServeFail (s : HostState) (halive : s.processAlive = true)
      (hpc : s.grpcPc = .serving) :
      HostStep s { s with
        grpcPc := .crashed
        grpcAccepting := false
        cancelled := true
        fatal := some .grpcServe
        processAlive := false
        wg := s.wg - 1 }
  | grpcServeExit (s : HostState) (halive : s.processAlive = true)
      (hpc : s.grpcPc = .serving) (hstop : s.stopPc ≠ .idle) :
      HostStep s { s with
        grpcPc := .exited
        grpcAccepting := false
        wg := s.wg - 1 }
  | httpListenOk (s : HostState) (halive : s.processAlive = true)
      (hpc : s.httpPc = .init) :
      HostStep s { s with httpPc := .serving, httpAccepting := true }
  | httpServeFail (s : HostState) (halive : s.processAlive = true)
      (hpc : s.httpPc = .init ∨ s.httpPc = .serving) :
      HostStep s { s with
        httpPc := .crashed
        httpAccepting := false
        cancelled := true
        fatal := some .httpServe
        processAlive := false
        wg := s.wg - 1 }
  | httpServeExit (s : HostState) (halive : s.processAlive = true)
      (hpc : s.httpPc = .serving) (hdrain : s.drainPc ≠ .idle) :
      HostStep s { s with
        httpPc := .exited
        httpAccepting := false
        wg := s.wg - 1 }
  | watcherFire (s : HostState) (halive : s.processAlive = true)
      (hc : s.cancelled = true) (hw : s.watcherFired = false) :
      HostStep s { s with watcherFired := true }
  | stopStart (s : HostState) (halive : s.processAlive = true)
      (hw : s.watcherFired = true) (hpc : s.stopPc = .idle) :
      HostStep s { s with stopPc := .running, grpcAccepting := false }
  | stopFinish (s : HostState) (halive : s.processAlive = true)
      (hpc : s.stopPc = .running)
      (hg : s.grpcPc = .exited ∨ s.grpcPc = .crashed) :
      HostStep s { s with stopPc := .finished }
  | drainStart (s : HostState) (halive : s.processAlive = true)
      (hw : s.watcherFired = true) (hpc : s.drainPc = .idle) :
      HostStep s { s with drainPc := .running, httpAccepting := false }
  | drainFinish (s : HostState) (halive : s.processAlive = true)
      (hpc : s.drainPc = .running)
      (hh : s.httpPc = .exited ∨ s.httpPc = .crashed) :
      HostStep s { s with drainPc := .finished }
  | shutdownCall (s : HostState) (halive : s.processAlive = true)
      (hm : s.mainPc = .running) :
      HostStep s { s with mainPc := .waitingBarrier, cancelled := true }
  | shutdownReturn (s : HostState) (halive : s.processAlive = true)
      (hm : s.mainPc = .waitingBarrier) (hwg : s.wg = 0) :
      HostStep s { s with mainPc := .returned }

/-- States reachable from the post-ListenAndServe state. -/
inductive HostReachable : HostState → Prop where
  | init : HostReachable initialHost
  | step {s t : HostState} (h : HostReachable s) (hs : HostStep s t) :
      HostReachable t

/-- Wait-group contribution of a listener task: one until its goroutine
has run its deferred wg.Done. -/
def listenerTaskLive : ListenerPc → Nat
  | .init => 1
  | .serving => 1
  | .exited => 0
  | .crashed => 0

/-- Whether any listener of the host still accepts a new connection (a
dead process accepts none). -/
def acceptsAnyConn (s : HostState) : Bool :=
  s.processAlive && (s.grpcAccepting || s.httpAccepting)

/-- Inductive invariant of the host model: the wait group counts exactly
the listener tasks that have not exited; an accepting listener is in its
serve loop; the Shutdown caller returns only with the barrier at zero;
and a crashed listener has cancelled the shared context, recorded its
fatal error and killed the process. -/
def hostInv (s : HostState) : Prop :=
  s.wg = listenerTaskLive s.grpcPc + listenerTaskLive s.httpPc ∧
  (s.grpcAccepting = true → s.grpcPc = .serving) ∧
  (s.httpAccepting = true → s.httpPc = .serving) ∧
  (s.mainPc = .returned → s.wg = 0) ∧
  ((s.grpcPc = .crashed ∨ s.httpPc = .crashed) →
    s.cancelled = true ∧ s.fatal.isSome = true ∧ s.processAlive = false)

theorem no_crash_of_alive {s : HostState} (halive : s.processAlive = true)
    (hcrash : (s.grpcPc = .crashed ∨ s.httpPc = .crashed) →
      s.cancelled = true ∧ s.fatal.isSome = true ∧ s.processAlive = false) :
    s.grpcPc ≠ .crashed ∧ s.httpPc ≠ .crashed := by
  constructor <;> intro h
  · have h2 := (hcrash (Or.inl h)).2.2
    rw [halive] at h2
    exact Bool.noConfusion h2
  · have h2 := (hcrash (Or.inr h)).2.2
    rw [halive] at h2
    exact Bool.noConfusion h2

theorem hostInv_init : hostInv initialHost := by
  refine ⟨by decide, ?_, ?_, ?_, ?_⟩
  · exact fun h => Bool.noConfusion h
  · exact fun h => Bool.noConfusion h
  · exact fun h => MainPc.noConfusion h
  · intro h
    rcases h with h | h <;> exact ListenerPc.noConfusion h

theorem hostInv_step {s t : HostState} (hstep : HostStep s t) (hs : hostInv s) :
    hostInv t := by
  obtain ⟨hwg, hga, hha, hret, hcrash⟩ := hs
  cases hstep with
  | grpcListenOk halive hpc =>
    obtain ⟨hnc1, hnc2⟩ := no_crash_of_alive halive hcrash
    refine ⟨?_, fun _ => rfl, hha, hret, ?_⟩
    · rw [hpc] at hwg
      dsimp only [listenerTaskLive] at hwg ⊢
      exact hwg
    · intro h
      rcases h with h | h
      · exact ListenerPc.noConfusion h
      · exact absurd h hnc2
  | grpcListenFail halive hpc =>
    refine ⟨?_, fun h => Bool.noConfusion h, hha, ?_, fun _ => ⟨rfl, rfl, rfl⟩⟩
    · rw [hpc] at hwg
      dsimp only [listenerTaskLive] at hwg ⊢
      omega
    · intro h
      have h0 := hret h
      dsimp only
      omega
  | grpcServeFail halive hpc =>
    refine ⟨?_, fun h => Bool.noConfusion h, hha, ?_, fun _ => ⟨rfl, rfl, rfl⟩⟩
    · rw [hpc] at hwg
      dsimp only [listenerTaskLive] at hwg ⊢
      omega
    · intro h
      have h0 := hret h
      dsimp only
      omega
  | grpcServeExit halive hpc hstop =>
    obtain ⟨hnc1, hnc2⟩ := no_crash_of_alive halive hcrash
    refine ⟨?_, fun h => Bool.noConfusion h, hha, ?_, ?_⟩
    · rw [hpc] at hwg
      dsimp only [listenerTaskLive] at hwg ⊢
      omega
    · intro h
      have h0 := hret h
      dsimp only
      omega
    · intro h
      rcases h with h | h
      · exact ListenerPc.noConfusion h
      · exact absurd h hnc2
  | httpListenOk halive hpc =>
    obtain ⟨hnc1, hnc2⟩ := no_crash_of_alive halive hcrash
    refine ⟨?_, hga, fun _ => rfl, hret, ?_⟩
    · rw [hpc] at hwg
      dsimp only [listenerTaskLive] at hwg ⊢
      exact hwg
    · intro h
      rcases h with h | h
      · exact absurd h hnc1
      · exact ListenerPc.noConfusion h
  | httpServeFail halive hpc =>
    refine ⟨?_, hga, fun h => Bool.noConfusion h, ?_, fun _ => ⟨rfl, rfl, rfl⟩⟩
    · rcases hpc with hpc | hpc <;>
        (rw [hpc] at hwg; dsimp only [listenerTaskLive] at hwg ⊢; omega)
    · intro h
      have h0 := hret h
      dsimp only
      omega
  | httpServeExit halive hpc hdrain =>
    obtain ⟨hnc1, hnc2⟩ := no_crash_of_alive halive hcrash
    refine ⟨?_, hga, fun h => Bool.noConfusion h, ?_, ?_⟩
    · rw [hpc] at hwg
      dsimp only [listenerTaskLive] at hwg ⊢
      omega
    · intro h
      have h0 := hret h
      dsimp only
      omega
    · intro h
      rcases h with h | h
      · exact absurd h hnc1
      · exact ListenerPc.noConfusion h
  | watcherFire halive hc hw =>
    exact ⟨hwg, hga, hha, hret, hcrash⟩
  | stopStart halive hw hpc =>
    exact ⟨hwg, fun h => Bool.noConfusion h, hha, hret, hcrash⟩
  | stopFinish halive hpc hg =>
    exact ⟨hwg, hga, hha, hret, hcrash⟩
  | drainStart halive hw hpc =>
    exact ⟨hwg, hga, fun h => Bool.noConfusion h, hret, hcrash⟩
  | drainFinish halive hpc hh =>
    exact ⟨hwg, hga, hha, hret, hcrash⟩
  | shutdownCall halive hm =>
    exact ⟨hwg, hga, hha, fun h => MainPc.noConfusion h,
      fun h => ⟨rfl, (hcrash h).2.1, (hcrash h).2.2⟩⟩
  | shutdownReturn halive hm hwg0 =>
    exact ⟨hwg, hga, hha, fun _ => hwg0, hcrash⟩

theorem hostInv_reachable {s : HostState} (h : HostReachable s) : hostInv s := by
  induction h with
  | init => exact hostInv_init
  | step h hs ih => exact hostInv_step hs ih

theorem hostStep_alive {s t : HostState} (h : HostStep s t) :
    s.processAlive = true := by
  cases h <;> assumption

theorem listenerTaskLive_eq_zero {pc : ListenerPc}
    (h : listenerTaskLive pc = 0) : pc = .exited ∨ pc = .crashed := by
  cases pc
  · exact absurd h (by decide)
  · exact absurd h (by decide)
  · exact Or.inl rfl
  · exact Or.inr rfl

/-- The state of the interleaving in which Shutdown has returned while
both detached shutdown fan-out goroutines are still running. -/
def c1FinalState : HostState :=
  { cancelled := true, wg := 0, processAlive := true, fatal := none,
    grpcPc := .exited, httpPc := .exited, grpcAccepting := false,
    httpAccepting := false, watcherFired := true, stopPc := .running,
    drainPc := .running, mainPc := .returned }

theorem c1FinalState_reachable : HostReachable c1FinalState := by
  have h0 : HostReachable initialHost := .init
  have h1 := h0.step (.grpcListenOk _ rfl rfl)
  have h2 := h1.step (.httpListenOk _ rfl rfl)
  have h3 := h2.step (.shutdownCall _ rfl rfl)
  have h4 := h3.step (.watcherFire _ rfl rfl rfl)
  have h5 := h4.step (.stopStart _ rfl rfl rfl)
  have h6 := h5.step (.grpcServeExit _ rfl rfl (fun h => TaskPc.noConfusion h))
  have h7 := h6.step (.drainStart _ rfl rfl rfl)
  have h8 := h7.step (.httpServeExit _ rfl rfl (fun h => TaskPc.noConfusion h))
  have h9 := h8.step (.shutdownReturn _ rfl rfl rfl)
  exact h9

/-- C1 counterexample: an execution of the host model in which Shutdown
has been called on a listening host and has already returned while
neither the GracefulStop fan-out task nor the bounded HTTP drain task has
finished: the fan-out goroutines of ListenAndServe are detached and the
wait group only counts the two serve loops, so Shutdown does not wait for
them. -/
theorem c1_shutdown_counterexample :
    HostReachable c1FinalState ∧
    c1FinalState.mainPc = .returned ∧
    c1FinalState.stopPc ≠ .finished ∧
    c1FinalState.drainPc ≠ .finished :=
  ⟨c1FinalState_reachable, rfl, fun h => TaskPc.noConfusion h,
   fun h => TaskPc.noConfusion h⟩

/-- C1 amended: in every reachable state in which Shutdown has returned,
the completion barrier is exactly zero, both serve loops have exited (so
no new RPC or HTTP connection is accepted), but the two detached shutdown
fan-out tasks are not guaranteed to have run to completion. -/
theorem c1_shutdown_amended (s : HostState) (hr : HostReachable s)
    (hret : s.mainPc = .returned) :
    s.wg = 0 ∧
    (s.grpcPc = .exited ∨ s.grpcPc = .crashed) ∧
    (s.httpPc = .exited ∨ s.httpPc = .crashed) ∧
    s.grpcAccepting = false ∧ s.httpAccepting = false := by
  obtain ⟨hwg, hga, hha, hret2, _⟩ := hostInv_reachable hr
  have h0 : s.wg = 0 := hret2 hret
  have hg : listenerTaskLive s.grpcPc = 0 := by omega
  have hh : listenerTaskLive s.httpPc = 0 := by omega
  have hg2 := listenerTaskLive_eq_zero hg
  have hh2 := listenerTaskLive_eq_zero hh
  refine ⟨h0, hg2, hh2, ?_, ?_⟩
  · cases hb : s.grpcAccepting
    · rfl
    · have hserv := hga hb
      rcases hg2 with h | h <;> (rw [h] at hserv; exact ListenerPc.noConfusion hserv)
  · cases hb : s.httpAccepting
    · rfl
    · have hserv := hha hb
      rcases hh2 with h | h <;> (rw [h] at hserv; exact ListenerPc.noConfusion hserv)

/-- Witness for c1_shutdown_amended at the returned state of the
counterexample trace. -/
theorem c1_shutdown_amended_witness :
    c1FinalState.wg = 0 ∧
    (c1FinalState.grpcPc = .exited ∨ c1FinalState.grpcPc = .crashed) ∧
    (c1FinalState.httpPc = .exited ∨ c1FinalState.httpPc = .crashed) ∧
    c1FinalState.grpcAccepting = false ∧ c1FinalState.httpAccepting = false :=
  c1_shutdown_amended c1FinalState c1FinalState_reachable rfl

/-- The state reached when the gRPC listener fails to bind at startup. -/
def c6CrashState : HostState :=
  { cancelled := true, wg := 1, processAlive := false,
    fatal := some .grpcBind, grpcPc := .crashed, httpPc := .init,
    grpcAccepting := false, httpAccepting := false, watcherFired := false,
    stopPc := .idle, drainPc := .idle, mainPc := .running }

theorem c6CrashState_reachable : HostReachable c6CrashState :=
  HostReachable.init.step (.grpcListenFail _ rfl rfl)

/-- C6: in every reachable state in which a listener has failed (bind
failure at startup or a non-graceful serve error), the shared execution
context is cancelled, the wrapped fatal error is recorded and propagated
by the panic that kills the process (never silently swallowed), no
listener accepts a connection any more (no orphaned listener), and no
further step of the host is possible (never retried). -/
theorem c6_fatal_propagation (s : HostState) (hr : HostReachable s)
    (hf : s.grpcPc = .crashed ∨ s.httpPc = .crashed) :
    s.cancelled = true ∧ s.fatal.isSome = true ∧ s.processAlive = false ∧
    acceptsAnyConn s = false ∧ ∀ t, ¬ HostStep s t := by
  obtain ⟨_, _, _, _, hcrash⟩ := hostInv_reachable hr
  obtain ⟨hc, hf2, hal⟩ := hcrash hf
  refine ⟨hc, hf2, hal, ?_, ?_⟩
  · simp [acceptsAnyConn, hal]
  · intro t hstep
    have halive := hostStep_alive hstep
    rw [hal] at halive
    exact Bool.noConfusion halive

/-- Witness for c6_fatal_propagation at the state reached by a gRPC bind
failure from the initial state. -/
theorem c6_fatal_propagation_witness :
    c6CrashState.cancelled = true ∧ c6CrashState.fatal.isSome = true ∧
    c6CrashState.processAlive = false ∧ acceptsAnyConn c6CrashState = false :=
  have h := c6_fatal_propagation c6CrashState c6CrashState_reachable (Or.inl rfl)
  ⟨h.1, h.2.1, h.2.2.1, h.2.2.2.1⟩
